import Mathlib

/-
Verification development for the b4igo email agent.

Shallow embedding of:
  * src/src/agent/workflow.py        (classify → extract → validate → finalize workflow)
  * src/src/agent/schemas.py         (HealthcareVaultSchema validation, result shapes)
  * src/src/email/email_parser.py    (format_email_for_llm)
  * src/b4igo_email_agent/ai_pipeline/domain_classifier.py   (DomainClassifier.classify)
  * src/b4igo_email_agent/ai_pipeline/agent/workflow.py      (add_email_to_vault)
  * src/b4igo_email_agent/ai_pipeline/email/models.py        (EmailInput data model)

Modelling conventions:
  * Python floats are modelled as exact rationals (ℚ); the confidence constants
    0.3 / 0.7 / 0.15 / 0.5 are the exact rationals 3/10, 7/10, 3/20, 1/2.
  * JSON values are an inductive `Json`; `json.loads` is modelled by the
    executable recursive-descent parser `jsonParse` (object/array/string/number/
    true/false/null, ASCII whitespace).  Unicode escapes and exponent literals
    are not modelled; no concrete input in this development uses them.
  * The reasoning engine ("agent") is an opaque capability `Prompt → Except String String`
    that either returns response text or faults.  Prompt strings built by the
    workflow are modelled as a tagged record `Prompt` of their variable parts,
    which preserves exactly the information the Python f-strings embed.
  * Wall-clock time (`time.time()` / `perf_counter`) is passed in as an explicit
    parameter where the result depends on it, and omitted where it does not.
-/

namespace B4igo

/-! ### Characters and low-level string helpers -/

/-- The opening curly brace character. -/
def obChar : Char := '\x7b'

/-- The closing curly brace character. -/
def cbChar : Char := '\x7d'

/-- Whitespace accepted by Python's `json` module between tokens: space, tab, LF, CR. -/
def isJsonWs (c : Char) : Bool := c = ' ' || c = '\t' || c = '\n' || c = '\r'

/-- Whitespace of Python's `str.strip()` (and of `\s` in the fence regex):
ASCII space, tab, LF, CR, VT, FF. -/
def isPyWs (c : Char) : Bool :=
  c = ' ' || c = '\t' || c = '\n' || c = '\r' || c = '\x0b' || c = '\x0c'

/-- `listStarts cs pat` : does `cs` start with `pat`? -/
def listStarts : List Char → List Char → Bool
  | _, [] => true
  | [], _ :: _ => false
  | c :: cs, p :: ps => c = p && listStarts cs ps

/-- Case-insensitive version of `listStarts`. -/
def listStartsCI : List Char → List Char → Bool
  | _, [] => true
  | [], _ :: _ => false
  | c :: cs, p :: ps => c.toLower = p.toLower && listStartsCI cs ps

/-- Python's substring test `pat in cs` on character lists. -/
def listHasSub : List Char → List Char → Bool
  | [], pat => pat.isEmpty
  | c :: t, pat => listStarts (c :: t) pat || listHasSub t pat

/-- Python's `sub in s` substring containment. -/
def strHasSub (s sub : String) : Bool := listHasSub s.data sub.data

/-- Python's `str.lower()` (ASCII). -/
def strLower (s : String) : String := String.mk (s.data.map Char.toLower)

/-- Python's slice `s[:n]` (by code points). -/
def strTake (s : String) (n : Nat) : String := String.mk (s.data.take n)

/-- Strip characters satisfying `p` from both ends of a list. -/
def stripList (p : Char → Bool) (cs : List Char) : List Char :=
  ((cs.dropWhile p).reverse.dropWhile p).reverse

/-- Python's `str.strip()` (default whitespace). -/
def strStrip (s : String) : String := String.mk (stripList isPyWs s.data)

/-- Python's `str.lstrip("-* ")` used on suggestion bullet lines. -/
def lstripDashStar (s : String) : String :=
  String.mk (s.data.dropWhile (fun c => c = '-' || c = '*' || c = ' '))

/-- Python's `str.splitlines()` restricted to the `\n` separator (the only line
break the workflow's inputs contain): no trailing empty segment, `"" → []`. -/
def splitlinesAux : List Char → List Char → List String
  | acc, [] => if acc.isEmpty then [] else [String.mk acc.reverse]
  | acc, c :: rest =>
    if c = '\n' then String.mk acc.reverse :: splitlinesAux [] rest
    else splitlinesAux (c :: acc) rest

/-- Python's `str.splitlines()`. -/
def splitlines (s : String) : List String := splitlinesAux [] s.data

/-! ### JSON values (model of what `json.loads` produces) -/

/-- JSON values; objects keep insertion order like Python dicts. -/
inductive Json where
  | null : Json
  | bool (b : Bool) : Json
  | num (q : ℚ) : Json
  | str (s : String) : Json
  | arr (elems : List Json) : Json
  | obj (fields : List (String × Json)) : Json

/-- A JSON object: ordered key/value pairs (Python dict with string keys). -/
abbrev JObj := List (String × Json)

/-- Python dict assignment `d[k] = v`: replace in place if the key exists,
else append.  (The parser uses it, so duplicate keys keep the last value,
as `json.loads` does.) -/
def objInsert : JObj → String → Json → JObj
  | [], k, v => [(k, v)]
  | (k', v') :: rest, k, v =>
    if k' = k then (k', v) :: rest else (k', v') :: objInsert rest k v

/-- Python `d.get(k)`: the value at `k`, if present. -/
def objGet (kvs : JObj) (k : String) : Option Json :=
  (kvs.find? (fun p => p.1 = k)).map Prod.snd

/-- Drop leading JSON whitespace. -/
def skipWs (cs : List Char) : List Char := cs.dropWhile isJsonWs

/-- Value of a digit run (most significant first). -/
def natOfDigits (ds : List Char) : Nat :=
  ds.foldl (fun a c => a * 10 + (c.toNat - 48)) 0

/-- Parse a JSON string body after the opening quote.  Escapes `\" \\ \/ \n \t \r`
are handled; `\u` escapes are not modelled (no input here uses them). -/
def parseStringBody : List Char → List Char → Option (String × List Char)
  | _, [] => none
  | acc, c :: rest =>
    if c = '"' then some (String.mk acc.reverse, rest)
    else if c = '\\' then
      match rest with
      | [] => none
      | e :: rest2 =>
        if e = '"' then parseStringBody ('"' :: acc) rest2
        else if e = '\\' then parseStringBody ('\\' :: acc) rest2
        else if e = '/' then parseStringBody ('/' :: acc) rest2
        else if e = 'n' then parseStringBody ('\n' :: acc) rest2
        else if e = 't' then parseStringBody ('\t' :: acc) rest2
        else if e = 'r' then parseStringBody ('\r' :: acc) rest2
        else none
    else parseStringBody (c :: acc) rest

/-- Parse a JSON number (optional minus, digits, optional fraction; exponents
not modelled — no input here uses them). -/
def parseNumAt (cs : List Char) : Option (Json × List Char) :=
  let signed := match cs with
    | '-' :: r => (true, r)
    | _ => (false, cs)
  let ds := (signed.2.span (fun c => c.isDigit)).1
  let r1 := (signed.2.span (fun c => c.isDigit)).2
  if ds.isEmpty then none
  else
    let ip : ℚ := (natOfDigits ds : ℚ)
    match r1 with
    | '.' :: r2 =>
      let fs := (r2.span (fun c => c.isDigit)).1
      let r3 := (r2.span (fun c => c.isDigit)).2
      if fs.isEmpty then none
      else
        let q : ℚ := ip + (natOfDigits fs : ℚ) / ((10 : ℚ) ^ fs.length)
        some (Json.num (if signed.1 then -q else q), r3)
    | _ => some (Json.num (if signed.1 then -ip else ip), r1)

mutual

/-- Fuel-indexed recursive-descent JSON value parser (model of `json.loads`'s
grammar).  Fuel bounds nesting depth; `jsonParse` supplies enough. -/
def parseVal : Nat → List Char → Option (Json × List Char)
  | 0, _ => none
  | Nat.succ fuel, cs0 =>
    match skipWs cs0 with
    | [] => none
    | c :: rest =>
      if c = obChar then
        match skipWs rest with
        | [] => none
        | d :: r2 =>
          if d = cbChar then some (Json.obj [], r2)
          else (parseObjFields fuel [] (d :: r2)).map (fun p => (Json.obj p.1, p.2))
      else if c = '[' then
        match skipWs rest with
        | [] => none
        | d :: r2 =>
          if d = ']' then some (Json.arr [], r2)
          else (parseArrElems fuel [] (d :: r2)).map (fun p => (Json.arr p.1, p.2))
      else if c = '"' then
        (parseStringBody [] rest).map (fun p => (Json.str p.1, p.2))
      else if listStarts (c :: rest) ['t', 'r', 'u', 'e'] then
        some (Json.bool true, (c :: rest).drop 4)
      else if listStarts (c :: rest) ['f', 'a', 'l', 's', 'e'] then
        some (Json.bool false, (c :: rest).drop 5)
      else if listStarts (c :: rest) ['n', 'u', 'l', 'l'] then
        some (Json.null, (c :: rest).drop 4)
      else parseNumAt (c :: rest)

/-- Parse `"key" : value (, "key" : value)* }` accumulating fields. -/
def parseObjFields : Nat → JObj → List Char → Option (JObj × List Char)
  | 0, _, _ => none
  | Nat.succ fuel, acc, cs =>
    match skipWs cs with
    | '"' :: rest =>
      match parseStringBody [] rest with
      | some (k, r1) =>
        match skipWs r1 with
        | ':' :: r2 =>
          match parseVal fuel r2 with
          | some (v, r3) =>
            match skipWs r3 with
            | ',' :: r4 => parseObjFields fuel (objInsert acc k v) r4
            | c :: r4 =>
              if c = cbChar then some (objInsert acc k v, r4) else none
            | [] => none
          | none => none
        | _ => none
      | none => none
    | _ => none

/-- Parse `value (, value)* ]` accumulating elements. -/
def parseArrElems : Nat → List Json → List Char → Option (List Json × List Char)
  | 0, _, _ => none
  | Nat.succ fuel, acc, cs =>
    match parseVal fuel cs with
    | some (v, r1) =>
      match skipWs r1 with
      | ',' :: r2 => parseArrElems fuel (acc ++ [v]) r2
      | ']' :: r2 => some (acc ++ [v], r2)
      | _ => none
    | none => none

end

/-- Model of `json.loads` on a character list: parse one value, require only
whitespace afterwards (Python raises on trailing data; callers catch that as
a parse failure, i.e. `none` here). -/
def jsonParse (cs : List Char) : Option Json :=
  match parseVal (cs.length + 1) cs with
  | some (v, rest) => if (skipWs rest).isEmpty then some v else none
  | none => none

/-! ### `_extract_json_from_text` (src/src/agent/workflow.py lines 23-55)

The fenced-block regex `r"```(?:json)?\s*(\{.*?\})\s*```"` (DOTALL, IGNORECASE,
`re.search`) is specialised to an equivalent deterministic matcher:
`re.search` tries start positions left to right; at a fixed start the literal
fence must match, `(?:json)?` prefers consuming `json` (falling back to the
empty alternative only if the rest fails there, which can only happen because
`\s*\{` cannot match starting at `j`), greedy `\s*` is deterministic because a
whitespace character can never satisfy the following `\{`/backtick, and the
lazy `.*?` makes the group end at the earliest `}` that is followed by
whitespace and  a closing fence. -/

/-- The fence delimiter as characters (three backticks). -/
def fenceChars : List Char := "\x60\x60\x60".data

/-- Does a closing fence (after maximal `\s*`) start here? -/
def fenceFollows (cs : List Char) : Bool :=
  listStarts (cs.dropWhile isPyWs) fenceChars

/-- Scan for the lazily-shortest group end: the earliest `}` followed by
`\s*` and a closing fence.  `accRev` holds the group so far, reversed. -/
def lazyGroup : List Char → List Char → Option (List Char)
  | _, [] => none
  | accRev, c :: rest =>
    if c = cbChar && fenceFollows rest then some ((c :: accRev).reverse)
    else lazyGroup (c :: accRev) rest

/-- After the opening fence (and optional `json` tag): skip `\s*`, require `{`,
then find the lazy group end. -/
def fencedAfterTag (cs : List Char) : Option (List Char) :=
  match cs.dropWhile isPyWs with
  | c :: rest => if c = obChar then lazyGroup [c] rest else none
  | [] => none

/-- Try to match the whole fence pattern with the match starting exactly here. -/
def fencedTry (cs : List Char) : Option (List Char) :=
  if listStarts cs fenceChars then
    let afterTicks := cs.drop 3
    match (if listStartsCI afterTicks ['j', 's', 'o', 'n'] then
             fencedAfterTag (afterTicks.drop 4)
           else none) with
    | some g => some g
    | none => fencedAfterTag afterTicks
  else none

/-- Leftmost match of the fence pattern: the captured `{...}` group of
`re.search(r"```(?:json)?\s*(\{.*?\})\s*```", text)`. -/
def fencedGroup : List Char → Option (List Char)
  | [] => none
  | c :: rest =>
    match fencedTry (c :: rest) with
    | some g => some g
    | none => fencedGroup rest

/-- Positions of `{` characters, numbering from `k`
(`[i for i, ch in enumerate(text) if ch == "{"]`). -/
def bracePositions (k : Nat) : List Char → List Nat
  | [] => []
  | c :: rest =>
    if c = obChar then k :: bracePositions (k + 1) rest
    else bracePositions (k + 1) rest

/-- The inner `for j in range(i, len(text))` loop of the balanced-brace scan.
`sub` is `text[i:]`, `k` counts characters consumed, `rest = sub.drop k`.
On `}` the depth is decremented; at depth zero the span `sub.take (k+1)`
(Python `text[i:j+1]`) is fed to `json.loads`: a dict is returned, a parse
error continues the inner loop, a successful non-dict parse breaks to the
next opening brace (unreachable: the span starts with `{`). -/
def innerScan (sub : List Char) : Nat → Int → List Char → Option JObj
  | _, _, [] => none
  | k, depth, c :: rest =>
    if c = obChar then innerScan sub (k + 1) (depth + 1) rest
    else if c = cbChar then
      if depth - 1 = 0 then
        match jsonParse (sub.take (k + 1)) with
        | some (Json.obj o) => some o
        | some _ => none
        | none => innerScan sub (k + 1) (depth - 1) rest
      else innerScan sub (k + 1) (depth - 1) rest
    else innerScan sub (k + 1) depth rest

/-- The outer `for i in start_positions` loop. -/
def outerScan (text : List Char) : List Nat → Option JObj
  | [] => none
  | i :: is =>
    match innerScan (text.drop i) 0 0 (text.drop i) with
    | some o => some o
    | none => outerScan text is

/-- `_extract_json_from_text`: fenced block first, then the balanced-brace scan,
else `None`.  (The fenced branch's parse result necessarily starts with `{`,
so a successful parse is an object; a failed parse falls through to the scan,
as the Python `except: pass` does.) -/
def extractJsonFromText (s : String) : Option JObj :=
  let cs := s.data
  if cs.isEmpty then none
  else
    match (fencedGroup cs).bind jsonParse with
    | some (Json.obj o) => some o
    | _ => outerScan cs (bracePositions 0 cs)

/-! #### Specification-level extractor (for the C5 refinement)

Follows the spec's words: enumerate every candidate span (for each opening
brace, each span at which the running depth returns to zero, in scan order)
and return the first one that parses to a JSON object; fenced block first. -/

/-- Span end offsets (relative to the opening brace) at which the running
brace depth returns to zero — the candidate spans of the spec's scan. -/
def candEnds : Nat → Int → List Char → List Nat
  | _, _, [] => []
  | k, depth, c :: rest =>
    if c = obChar then candEnds (k + 1) (depth + 1) rest
    else if c = cbChar then
      if depth - 1 = 0 then (k + 1) :: candEnds (k + 1) (depth - 1) rest
      else candEnds (k + 1) (depth - 1) rest
    else candEnds (k + 1) depth rest

/-- Parse a candidate span, keeping it only if it is a JSON object. -/
def parseObjOf (cs : List Char) : Option JObj :=
  match jsonParse cs with
  | some (Json.obj o) => some o
  | _ => none

/-- All candidate spans of the balanced-brace scan, in trial order. -/
def specCandidates (cs : List Char) : List (List Char) :=
  ((bracePositions 0 cs).map
    (fun i => (candEnds 0 0 (cs.drop i)).map (fun n => (cs.drop i).take n))).flatten

/-- Spec-level extractor: first candidate that parses to an object,
fenced block given priority, `none` if nothing parses. -/
def specExtract (s : String) : Option JObj :=
  let cs := s.data
  if cs.isEmpty then none
  else
    match (fencedGroup cs).bind jsonParse with
    | some (Json.obj o) => some o
    | _ => ((specCandidates cs).filterMap parseObjOf).head?

/-! ### Email data model (src/b4igo_email_agent/ai_pipeline/email/models.py)

`src/email/models.py` of the workflow package is the same Pydantic model file
(its fields are confirmed by its uses in workflow.py and email_parser.py);
one shared embedding serves both packages.  `received_at` is kept as its
ISO-8601 serialization (the only way the workflow ever observes it). -/

/-- `EmailAddress`: address with optional display name. -/
structure EmailAddress where
  address : String
  name : Option String

/-- `EmailMetadata`: optional ids/headers/labels. -/
structure EmailMetadata where
  message_id : Option String
  in_reply_to : Option String
  references : List String
  headers : JObj
  thread_id : Option String
  labels : List String

/-- `EmailInput`: the normalized inbound email.  `metadata` may be an
`EmailMetadata` or a plain dict (the Union in the source); `attachments`
is `Optional[List[Dict]]`. -/
structure EmailInput where
  from_address : EmailAddress
  to_address : List EmailAddress
  subject : String
  body : String
  received_at : String
  metadata : Option (EmailMetadata ⊕ JObj)
  attachments : Option (List JObj)
  cc : List EmailAddress
  bcc : List EmailAddress

/-- `EmailAddress.__str__`: `"name <address>"` when a non-empty name is set
(Python's `if self.name:` is falsy for an empty string), else the address. -/
def addrToStr (a : EmailAddress) : String :=
  match a.name with
  | some n => if n.isEmpty then a.address else n ++ " <" ++ a.address ++ ">"
  | none => a.address

/-- `format_email_for_llm` (src/src/email/email_parser.py lines 220-261). -/
def formatEmailForLlm (email : EmailInput) : String :=
  "Subject: " ++ email.subject ++
  "\nFrom: " ++ addrToStr email.from_address ++
  "\nTo: " ++ String.intercalate ", " (email.to_address.map addrToStr) ++
  "\nDate: " ++ email.received_at ++
  "\n\n" ++ email.body

/-! ### Vault schemas (src/src/agent/schemas.py) -/

/-- The 8-term vault vocabulary, in the order the classify fallback scans it. -/
def vaultTypes : List String :=
  ["personal_info", "healthcare", "digital_accounts", "key_master_directives",
   "legal", "communications", "end_of_life", "financial"]

/-- Truthiness of a JSON value under Python `bool(...)`. -/
def pyBool : Json → Bool
  | Json.null => false
  | Json.bool b => b
  | Json.num q => decide (q ≠ 0)
  | Json.str s => !s.isEmpty
  | Json.arr l => !l.isEmpty
  | Json.obj kvs => !kvs.isEmpty

/-- Python `float(str)` on a stripped decimal literal (sign, digits, optional
fraction).  Exponents / `inf` / `nan` are not modelled; every concrete use in
this development is a non-numeric string, where both return failure. -/
def parseFloatLit (s : String) : Option ℚ :=
  let cs := stripList isPyWs s.data
  let signed := match cs with
    | '-' :: r => (true, r)
    | '+' :: r => (false, r)
    | _ => (false, cs)
  let ds := (signed.2.span (fun c => c.isDigit)).1
  let r1 := (signed.2.span (fun c => c.isDigit)).2
  match r1 with
  | '.' :: r2 =>
    let fs := (r2.span (fun c => c.isDigit)).1
    let r3 := (r2.span (fun c => c.isDigit)).2
    if r3.isEmpty && !(ds.isEmpty && fs.isEmpty) then
      some (let q : ℚ := (natOfDigits ds : ℚ) + (natOfDigits fs : ℚ) / ((10 : ℚ) ^ fs.length);
            if signed.1 then -q else q)
    else none
  | [] =>
    if ds.isEmpty then none
    else some (let q : ℚ := (natOfDigits ds : ℚ); if signed.1 then -q else q)
  | _ => none

/-- Python `float(v)` on a JSON-decoded value: numbers pass through, booleans
are 0/1 (bool is an int subclass), numeric strings parse, everything else
raises (`ValueError`/`TypeError`), which the workflow's top-level handler
turns into an error string. -/
def pyFloat : Json → Except String ℚ
  | Json.num q => Except.ok q
  | Json.bool b => Except.ok (if b then 1 else 0)
  | Json.str s =>
    match parseFloatLit s with
    | some q => Except.ok q
    | none => Except.error ("could not convert string to float: " ++ s)
  | Json.null => Except.error "float() argument must be a string or a real number, not NoneType"
  | Json.arr _ => Except.error "float() argument must be a string or a real number, not list"
  | Json.obj _ => Except.error "float() argument must be a string or a real number, not dict"

/-- Python `str(v)` of a JSON-decoded value, as it appears inside f-strings and
`str(a).strip()`.  Container/number formatting is simplified (it never flows
into anything a theorem observes beyond keyword containment). -/
def jsonToPyStr : Json → String
  | Json.null => "None"
  | Json.bool true => "True"
  | Json.bool false => "False"
  | Json.num q => if q.den = 1 then toString q.num else toString q.num ++ "/" ++ toString q.den
  | Json.str s => s
  | Json.arr _ => "[...]"
  | Json.obj _ => "\x7b...\x7d"

/-- An optional string field of a Pydantic model: absent, `null`, or a string. -/
def optFieldStr (kvs : JObj) (k : String) : Bool :=
  match objGet kvs k with
  | none => true
  | some Json.null => true
  | some (Json.str _) => true
  | _ => false

/-- An optional int field: absent, `null`, or an integral number
(Pydantic lax mode accepts integral floats). -/
def optFieldInt (kvs : JObj) (k : String) : Bool :=
  match objGet kvs k with
  | none => true
  | some Json.null => true
  | some (Json.num q) => decide (q.den = 1)
  | _ => false

/-- Is the value a JSON object (a dict)? -/
def isObjJ : Json → Bool
  | Json.obj _ => true
  | _ => false

/-- Is the value a JSON string? -/
def isStrJ : Json → Bool
  | Json.str _ => true
  | _ => false

/-- `ExtractedAppointment` validation: `date` and `provider` are required
strings; `time`/`location`/`appointment_type`/`notes` optional strings,
`duration` an optional int. -/
def apptOk (v : Json) : Bool :=
  match v with
  | Json.obj kvs =>
    isStrJ ((objGet kvs "date").getD Json.null) &&
    isStrJ ((objGet kvs "provider").getD Json.null) &&
    optFieldStr kvs "time" && optFieldStr kvs "location" &&
    optFieldStr kvs "appointment_type" && optFieldInt kvs "duration" &&
    optFieldStr kvs "notes"
  | _ => false

/-- An `Optional[List[...]]` field whose elements must satisfy `p`:
absent (default applies), `null`, or a list of valid elements. -/
def listFieldOk (p : Json → Bool) : Option Json → Bool
  | none => true
  | some Json.null => true
  | some (Json.arr l) => l.all p
  | _ => false

/-- `HealthcareVaultSchema(**extracted_data)` success (src/src/agent/schemas.py
lines 20-75): every field is optional or has a default; present fields must be
well-typed.  Extra keys are ignored (Pydantic's default); lax string/number
coercions are simplified to strict type checks (no theorem below evaluates
this on a coerced value). -/
def healthcareValid (d : JObj) : Bool :=
  listFieldOk apptOk (objGet d "appointments") &&
  listFieldOk isObjJ (objGet d "test_results") &&
  listFieldOk isObjJ (objGet d "prescriptions") &&
  listFieldOk isObjJ (objGet d "providers") &&
  (match objGet d "insurance" with
   | none => true
   | some Json.null => true
   | some (Json.obj _) => true
   | _ => false) &&
  listFieldOk isObjJ (objGet d "medical_records") &&
  listFieldOk isObjJ (objGet d "bills") &&
  listFieldOk isStrJ (objGet d "conditions") &&
  optFieldStr d "notes"

/-- `get_vault_schema_definition` (src/src/agent/schemas.py lines 172-243).
The healthcare text's multi-line JSON example is abbreviated: the string is
opaque to the workflow logic (it only feeds prompt text). -/
def healthcareSchemaDefinition : String :=
  "The healthcare vault schema expects a JSON object with appointments, " ++
  "test_results, prescriptions, providers, insurance, medical_records, bills, " ++
  "conditions and notes. All fields are optional except where marked as required. " ++
  "Extract only the information that is present in the email."

/-- `get_vault_schema_definition(vault_type)`; the argument is whatever JSON
value classification produced (Python compares it to `"healthcare"` and
otherwise interpolates `str(vault_type)`). -/
def getVaultSchemaDefinition (vault_type : Json) : String :=
  match vault_type with
  | Json.str s =>
    if s = "healthcare" then healthcareSchemaDefinition
    else "Extract structured data for the " ++ s ++
         " vault. Return a JSON object with relevant fields based on the email content."
  | v => "Extract structured data for the " ++ jsonToPyStr v ++
         " vault. Return a JSON object with relevant fields based on the email content."

/-! ### Reasoning-engine capability and `_call_agent` -/

/-- The prompts the workflow sends, as tagged records of their variable parts
(the surrounding literal text of the Python f-strings carries no further
information). -/
inductive Prompt where
  | classifyP (emailContent : String) : Prompt
  | extractP (vaultType : Json) (emailContent : String) (schemaDefinition : String) : Prompt
  | validateP (vaultType : Json) (schemaDefinition : String) (extractedData : JObj) : Prompt

/-- The reasoning-engine capability: given a prompt, returns response text or
faults. -/
abbrev Agent := Prompt → Except String String

/-- `_call_agent` (src/src/agent/workflow.py lines 113-127): any exception from
the agent is swallowed and becomes the empty string. -/
def callAgent (agent : Agent) (p : Prompt) : String :=
  match agent p with
  | Except.ok s => s
  | Except.error _ => ""

/-! ### The Classify stage (src/src/agent/workflow.py lines 130-182) -/

/-- The fallback dict built when `_extract_json_from_text` yields nothing
truthy (`None` or an empty dict): default vault type, confidence 0.5,
`reasoning = response[:200]`, then the case-insensitive substring scan of the
lowered response against the vocabulary, first term found overriding
`vault_type`. -/
def fallbackClassify (response : String) : JObj :=
  let base : JObj :=
    [("vault_type", Json.str "communications"),
     ("confidence", Json.num (1/2)),
     ("reasoning", Json.str (strTake response 200))]
  match vaultTypes.find? (fun vt => strHasSub (strLower response) vt) with
  | some vt => objInsert base "vault_type" (Json.str vt)
  | none => base

/-- Response handling of `classify_email` after the agent call: parse the
response, fall back when `not result`, then read `vault_type` (default
`"communications"`) and `float(result.get("confidence", 0.5))` — where the
`float(...)` conversion can raise and propagate to the workflow's top-level
handler. -/
def classifyResponse (response : String) : Except String (Json × ℚ × Option Json) :=
  let result : JObj :=
    match extractJsonFromText response with
    | some kvs => if kvs.isEmpty then fallbackClassify response else kvs
    | none => fallbackClassify response
  let vault_type := (objGet result "vault_type").getD (Json.str "communications")
  match pyFloat ((objGet result "confidence").getD (Json.num (1/2))) with
  | Except.ok confidence => Except.ok (vault_type, confidence, objGet result "reasoning")
  | Except.error e => Except.error e

/-- Output of the Classify stage. -/
structure ClassifyResult where
  vault_type : Json
  confidence : ℚ
  reasoning : Option Json
  email_content : String

/-- `classify_email`. -/
def classifyEmail (agent : Agent) (email : EmailInput) : Except String ClassifyResult :=
  let email_content := formatEmailForLlm email
  match classifyResponse (callAgent agent (Prompt.classifyP email_content)) with
  | Except.ok (vt, conf, reas) => Except.ok ⟨vt, conf, reas, email_content⟩
  | Except.error e => Except.error e

/-! ### The Extract stage (src/src/agent/workflow.py lines 58-79, 185-208) -/

/-- `_parse_suggested_actions` fallback loop over the response's lines:
a line containing `"suggested actions"` (case-insensitively) turns capture on
and is itself skipped; captured lines are stripped of bullets; an
empty-after-stripping line stops capture; the `if len(suggestions) > 10`
check runs after appending, so up to 11 items accumulate. -/
def goSuggestions : List String → Bool → List String → List String
  | [], _, acc => acc.reverse
  | line :: rest, capture, acc =>
    if strHasSub (strLower line) "suggested actions" then goSuggestions rest true acc
    else if capture then
      let s := strStrip (lstripDashStar (strStrip line))
      if s.isEmpty then acc.reverse
      else if acc.length + 1 > 10 then (s :: acc).reverse
      else goSuggestions rest capture (s :: acc)
    else goSuggestions rest false acc

/-- The line-scraping fallback of `_parse_suggested_actions`. -/
def suggestionLines (response_text : String) : List String :=
  goSuggestions (splitlines response_text) false []

/-- `_parse_suggested_actions`: the JSON path fires only when the extracted
object is truthy (non-empty), has the key, and its value is a list; otherwise
the line-scraping fallback runs. -/
def parseSuggestedActions (response_text : String) : List String :=
  let jsonPath : Option (List String) :=
    match extractJsonFromText response_text with
    | some d =>
      if d.isEmpty then none
      else
        match objGet d "suggested_actions" with
        | some (Json.arr l) =>
          some ((l.map (fun a => strStrip (jsonToPyStr a))).filter (fun s => !s.isEmpty))
        | _ => none
    | none => none
  match jsonPath with
  | some acts => acts
  | none => suggestionLines response_text

/-- Output of the Extract stage. -/
structure ExtractResult where
  extracted_data : JObj
  suggested_actions : List String

/-- `extract_information`: parse the response (`or {}` on failure), harvest
suggested actions from the same text. -/
def extractInformation (agent : Agent) (vault_type : Json) (email_content : String) :
    ExtractResult :=
  let schemaDef := getVaultSchemaDefinition vault_type
  let response := callAgent agent (Prompt.extractP vault_type email_content schemaDef)
  { extracted_data := (extractJsonFromText response).getD []
    suggested_actions := parseSuggestedActions response }

/-! ### The Validate stage (src/src/agent/workflow.py lines 211-257) -/

/-- `validate_extraction`.  The second component counts reasoning-engine calls
(0 when the healthcare Pydantic validation short-circuits, 1 otherwise).
The LLM result is used only when it is a truthy dict holding
`validation_passed`; otherwise `bool(extracted_data)` decides. -/
def validateExtraction (agent : Agent) (vault_type : Json) (extracted_data : JObj) :
    Bool × Nat :=
  let pydanticPass :=
    match vault_type with
    | Json.str s => s = "healthcare" && healthcareValid extracted_data
    | _ => false
  if pydanticPass then (true, 0)
  else
    let schemaDef := getVaultSchemaDefinition vault_type
    let response := callAgent agent (Prompt.validateP vault_type schemaDef extracted_data)
    let passed :=
      match extractJsonFromText response with
      | some kvs =>
        if kvs.isEmpty then !extracted_data.isEmpty
        else
          match objGet kvs "validation_passed" with
          | some v => pyBool v
          | none => !extracted_data.isEmpty
      | none => !extracted_data.isEmpty
    (passed, 1)

/-! ### The Finalize stage and the workflow driver
(src/src/agent/workflow.py lines 82-110, 260-326) -/

/-- `SuggestedAction` (params is always the empty dict here and is omitted). -/
structure SuggestedAction where
  action_type : String
  description : String

/-- `_convert_suggested_actions`: infer the action type by the fixed ordered
keyword match, skip empty strings. -/
def inferActionType (action_str : String) : String :=
  let lower := strLower action_str
  if ["calendar", "schedule", "appointment", "meeting"].any (fun w => strHasSub lower w)
  then "calendar"
  else if ["reminder", "remind"].any (fun w => strHasSub lower w) then "reminder"
  else if ["contact", "update"].any (fun w => strHasSub lower w) then "update_contact"
  else if ["bill", "payment", "pay"].any (fun w => strHasSub lower w) then "payment"
  else "general"

/-- `_convert_suggested_actions`. -/
def convertSuggestedActions (action_strings : List String) : List SuggestedAction :=
  action_strings.filterMap (fun s =>
    if s.isEmpty then none
    else some ⟨inferActionType s, strStrip s⟩)

/-- `VaultExtraction` (processing-relevant fields; `multiple_vaults` is never
set by the workflow). -/
structure VaultExtraction where
  vault_type : String
  confidence : ℚ
  extracted_data : JObj
  suggested_actions : List SuggestedAction
  reasoning : Option String

/-- `AgentResponse` (the wall-clock `processing_time` is omitted: no claim
observes it). -/
structure AgentResponse where
  extraction : VaultExtraction
  tools_used : List String
  errors : List String
  warnings : List String

/-- Pydantic validation of `VaultExtraction.vault_type : str`: a non-string
value raises `ValidationError` (Pydantic v2 does not coerce to `str`),
caught by the top-level handler. -/
def pydanticStr : Json → Except String String
  | Json.str s => Except.ok s
  | _ => Except.error "1 validation error for VaultExtraction: vault_type must be a string"

/-- The `except Exception` branch of `process_email_async`: record the message,
return the safe default extraction.  `warnings` keeps whatever had been
appended before the fault. -/
def errorResponse (e : String) (warnings : List String) : AgentResponse :=
  { extraction :=
      { vault_type := "communications"
        confidence := 0
        extracted_data := []
        suggested_actions := []
        reasoning := some ("Error: " ++ e) }
    tools_used := []
    errors := [e]
    warnings := warnings }

/-- `process_email_async`: classify → extract → validate → finalize, with the
top-level handler converting any stage fault into the safe default response.
The two fault sources are the `float(...)` conversion in Classify and the
`VaultExtraction` field validation in Finalize; totality of this function is
the model of "never propagate a fault to the caller". -/
def processEmail (agent : Agent) (email : EmailInput) : AgentResponse :=
  match classifyEmail agent email with
  | Except.error e => errorResponse e []
  | Except.ok classification =>
    let extraction :=
      extractInformation agent classification.vault_type classification.email_content
    let extracted_data := extraction.extracted_data
    let validation_passed :=
      (validateExtraction agent classification.vault_type extracted_data).1
    let warnings := if validation_passed then [] else ["Schema validation had issues"]
    let suggested_actions := convertSuggestedActions extraction.suggested_actions
    let c1 : ℚ := if !extracted_data.isEmpty then 7/10 else 3/10
    let confidence : ℚ := if validation_passed then min (c1 + 3/20) 1 else c1
    match pydanticStr classification.vault_type with
    | Except.error e => errorResponse e warnings
    | Except.ok vtStr =>
      { extraction :=
          { vault_type := vtStr
            confidence := confidence
            extracted_data := extracted_data
            suggested_actions := suggested_actions
            reasoning := some ("Extracted using " ++ vtStr ++ " schema. Validation: " ++
                               (if validation_passed then "passed" else "issues")) }
        tools_used := []
        errors := []
        warnings := warnings }

/-! ### Vault payload builder
(src/b4igo_email_agent/ai_pipeline/agent/workflow.py lines 25-110) -/

namespace Pipeline

/-- The payload dict of `_email_to_vault_data`.  Address objects always take
the Pydantic `model_dump` branch (`{address, name}`, the identity here);
`metadata` is included only when set; `attachments` only when truthy. -/
structure VaultData where
  from_address : EmailAddress
  to_address : List EmailAddress
  subject : String
  body : String
  received_at : String
  cc : List EmailAddress
  bcc : List EmailAddress
  metadata : Option (EmailMetadata ⊕ JObj)
  attachments : Option (List JObj)

/-- `_email_to_vault_data`: a pure serialization of the email. -/
def emailToVaultData (email : EmailInput) : VaultData :=
  { from_address := email.from_address
    to_address := email.to_address
    subject := email.subject
    body := email.body
    received_at := email.received_at
    cc := email.cc
    bcc := email.bcc
    metadata := email.metadata
    attachments :=
      match email.attachments with
      | some l => if l.isEmpty then none else some l
      | none => none }

/-- `VaultAddResult` (src/b4igo_email_agent/ai_pipeline/agent/schemas.py). -/
structure VaultAddResult where
  vault_type : String
  data : VaultData
  errors : List String
  processing_time_s : Option ℚ

/-- `add_email_to_vault`: the `try` body is total on a well-formed
`EmailInput` (no I/O, no partial operation), so the `except` branch is dead
and `errors` is always empty; `elapsed` stands for the `perf_counter`
difference. -/
def addEmailToVault (email : EmailInput) (vault_type : String) (elapsed : ℚ) :
    VaultAddResult :=
  { vault_type := vault_type
    data := emailToVaultData email
    errors := []
    processing_time_s := some elapsed }

end Pipeline

/-! ### Domain classifier
(src/b4igo_email_agent/ai_pipeline/domain_classifier.py) -/

namespace DomainClassifier

/-- The five categories, in declaration order of `self._categories`. -/
def categoryList : List String := ["education", "medical", "legal", "personal", "other"]

/-- `EmailClassificationResult` (`all_scores` keeps dict insertion order). -/
structure EmailClassificationResult where
  category : String
  confidence : ℚ
  all_scores : List (String × ℚ)

/-- `np.argmax`: index of the first occurrence of the maximum (0 on `[]`). -/
def npArgmax : List ℚ → Nat
  | [] => 0
  | [_] => 0
  | x :: y :: rest =>
    if (y :: rest).getD (npArgmax (y :: rest)) 0 > x then npArgmax (y :: rest) + 1
    else 0

/-- `DomainClassifier.classify`.  The per-email similarity row (flatten to
text, batch-embed, cosine against the cached category matrix) is abstracted
as `rowScores`; the claim under verification is independent of the scores'
values.  Empty input returns empty output without consulting `rowScores`. -/
def classify {α : Type} (rowScores : α → List ℚ) (emails : List α) :
    List EmailClassificationResult :=
  if emails.isEmpty then []
  else
    emails.map (fun e =>
      let scores := rowScores e
      let best := npArgmax scores
      { category := categoryList.getD best ""
        confidence := scores.getD best 0
        all_scores := categoryList.zip scores })

end DomainClassifier

/-! ### Derived run observations and concrete inputs used by witnesses -/

/-- The extracted data of a run whose Classify stage produced `c`. -/
def runExtracted (agent : Agent) (c : ClassifyResult) : JObj :=
  (extractInformation agent c.vault_type c.email_content).extracted_data

/-- The validation verdict of a run whose Classify stage produced `c`. -/
def runValidated (agent : Agent) (c : ClassifyResult) : Bool :=
  (validateExtraction agent c.vault_type (runExtracted agent c)).1

/-- A concrete well-formed email used to instantiate witnesses. -/
def sampleEmail : EmailInput :=
  { from_address := { address := "alice@example.com", name := some "Alice" }
    to_address := [{ address := "bob@example.com", name := none }]
    subject := "Hello"
    body := "Hi Bob"
    received_at := "2024-01-15T10:00:00"
    metadata := none
    attachments := some []
    cc := []
    bcc := [] }

/-- An agent whose classify response carries a non-numeric confidence, making
`float(...)` raise inside the Classify stage. -/
def c1WitnessAgent : Agent := fun p =>
  match p with
  | Prompt.classifyP _ =>
    Except.ok "\x7b\"vault_type\": \"legal\", \"confidence\": \"high\"\x7d"
  | _ => Except.ok ""

/-- An agent answering every prompt with a legal-vault object of confidence 1. -/
def c6CtxAgent : Agent := fun _ =>
  Except.ok "\x7b\"vault_type\": \"legal\", \"confidence\": 1\x7d"

/-- Classify response text whose extracted object is non-empty but has no
`vault_type` key, while the raw text contains the vocabulary term
`healthcare`. -/
def c2CtxText : String := "\x7b\"note\": 1\x7d healthcare"

/-- Response text with no JSON and twelve bullet lines under the
`Suggested actions` marker. -/
def c7CtxText : String :=
  "Suggested actions:\n- a1\n- a2\n- a3\n- a4\n- a5\n- a6\n- a7\n- a8\n- a9\n- a10\n- a11\n- a12"

/-- The hypothesis of claim C7: the response text carries no
`suggested_actions` JSON array recoverable by the extractor. -/
def noActionsJson (t : String) : Prop :=
  ∀ d, extractJsonFromText t = some d → d ≠ [] →
    ∀ l, objGet d "suggested_actions" ≠ some (Json.arr l)

/-- An agent that classifies into healthcare and returns unusable text at every
other stage. -/
def c9WitnessAgent : Agent := fun p =>
  match p with
  | Prompt.classifyP _ => Except.ok "\x7b\"vault_type\": \"healthcare\"\x7d"
  | _ => Except.ok ""

/-- A concrete similarity row used to instantiate the classifier witness
(tied best score shared by the first two categories). -/
def c4Rows : Unit → List ℚ := fun _ => [1, 1, 0, 0, 0]

/-- The classification result `classify c4Rows [()]` produces. -/
def c4Result : DomainClassifier.EmailClassificationResult :=
  { category := "education"
    confidence := 1
    all_scores :=
      [("education", 1), ("medical", 1), ("legal", 0), ("personal", 0), ("other", 0)] }

/-! ## Shared lemmas -/

/-- Shape of a completed (non-faulting) run of `process_email_async`:
the Finalize stage's record, with confidence computed by the 0.3 / 0.7 /
`min(+0.15, 1.0)` rule. -/
theorem processEmail_ok_eq (agent : Agent) (email : EmailInput) (c : ClassifyResult)
    (s : String) (hc : classifyEmail agent email = Except.ok c)
    (hp : pydanticStr c.vault_type = Except.ok s) :
    processEmail agent email =
      { extraction :=
          { vault_type := s
            confidence :=
              if runValidated agent c then
                min ((if !(runExtracted agent c).isEmpty then (7:ℚ)/10 else 3/10) + 3/20) 1
              else (if !(runExtracted agent c).isEmpty then (7:ℚ)/10 else 3/10)
            extracted_data := runExtracted agent c
            suggested_actions :=
              convertSuggestedActions
                (extractInformation agent c.vault_type c.email_content).suggested_actions
            reasoning := some ("Extracted using " ++ s ++ " schema. Validation: " ++
                               (if runValidated agent c then "passed" else "issues")) }
        tools_used := []
        errors := []
        warnings := if runValidated agent c then [] else ["Schema validation had issues"] } := by
  simp only [processEmail, hc, hp, runExtracted, runValidated]

/-- Shape of a faulting run of `process_email_async` whose Classify stage
raised. -/
theorem processEmail_classify_error (agent : Agent) (email : EmailInput) (e : String)
    (hc : classifyEmail agent email = Except.error e) :
    processEmail agent email = errorResponse e [] := by
  simp only [processEmail, hc]

/-! ## Claim C1 -/

/-- Claim C1: `process_email_async` never propagates a fault (`processEmail`
is a total function into `AgentResponse` by construction); whenever the
returned `errors` list is non-empty, it holds exactly the fault message, and
the extraction is still present and well-formed: vault type
`"communications"`, confidence 0.0, empty data and actions, and an
explanatory `"Error: ..."` reasoning string. -/
theorem c1_top_level_fault_contract (agent : Agent) (email : EmailInput)
    (h : (processEmail agent email).errors ≠ []) :
    ∃ e, (processEmail agent email).errors = [e] ∧
      (processEmail agent email).extraction.vault_type = "communications" ∧
      (processEmail agent email).extraction.confidence = 0 ∧
      (processEmail agent email).extraction.extracted_data = [] ∧
      (processEmail agent email).extraction.suggested_actions = [] ∧
      (processEmail agent email).extraction.reasoning = some ("Error: " ++ e) := by
  cases hc : classifyEmail agent email with
  | error e =>
    refine ⟨e, ?_⟩
    simp [processEmail_classify_error agent email e hc, errorResponse]
  | ok c =>
    cases hp : pydanticStr c.vault_type with
    | error e =>
      refine ⟨e, ?_⟩
      simp [processEmail, hc, hp, errorResponse]
    | ok s =>
      exact absurd (by simp [processEmail_ok_eq agent email c s hc hp]) h

/-- Witness for C1: a classify response whose confidence is the string
`"high"` makes `float(...)` raise; the run records the message and returns
the safe default extraction. -/
theorem c1_witness :
    (processEmail c1WitnessAgent sampleEmail).errors ≠ [] ∧
    ∃ e, (processEmail c1WitnessAgent sampleEmail).errors = [e] ∧
      (processEmail c1WitnessAgent sampleEmail).extraction.vault_type = "communications" ∧
      (processEmail c1WitnessAgent sampleEmail).extraction.confidence = 0 ∧
      (processEmail c1WitnessAgent sampleEmail).extraction.extracted_data = [] ∧
      (processEmail c1WitnessAgent sampleEmail).extraction.suggested_actions = [] ∧
      (processEmail c1WitnessAgent sampleEmail).extraction.reasoning = some ("Error: " ++ e) := by
  have h : (processEmail c1WitnessAgent sampleEmail).errors ≠ [] := by decide
  exact ⟨h, c1_top_level_fault_contract c1WitnessAgent sampleEmail h⟩

/-! ## Claim C2 -/

/-- Key lookups on the classify fallback dict: `vault_type` is the first
vocabulary term found in the lowered response (default `"communications"`),
`confidence` is 0.5, `reasoning` is the 200-character response prefix. -/
theorem fallbackClassify_get (r : String) :
    objGet (fallbackClassify r) "vault_type" =
      some (Json.str ((vaultTypes.find? (fun vt => strHasSub (strLower r) vt)).getD
        "communications")) ∧
    objGet (fallbackClassify r) "confidence" = some (Json.num (1/2)) ∧
    objGet (fallbackClassify r) "reasoning" = some (Json.str (strTake r 200)) := by
  cases hf : vaultTypes.find? (fun vt => strHasSub (strLower r) vt) with
  | none =>
    refine ⟨?_, ?_, ?_⟩ <;> (simp only [fallbackClassify]; rw [hf]; rfl)
  | some vt =>
    refine ⟨?_, ?_, ?_⟩ <;> (simp only [fallbackClassify]; rw [hf]; rfl)

/-- Counterexample to claim C2: for the response text
`{"note": 1} healthcare`, extraction succeeds with a non-empty object that has
no `vault_type` key, and the raw text contains the vocabulary term
`healthcare`; the claim then demands the substring-scan override
(`vault_type = "healthcare"`), but the stage returns `"communications"` —
the scan runs only when extraction yields nothing truthy. -/
theorem c2_counterexample :
    extractJsonFromText c2CtxText = some [("note", Json.num 1)] ∧
    objGet [("note", Json.num 1)] "vault_type" = none ∧
    strHasSub (strLower c2CtxText) "healthcare" = true ∧
    classifyResponse c2CtxText = Except.ok (Json.str "communications", 1/2, none) :=
  ⟨rfl, rfl, rfl, rfl⟩

/-- Claim C2 as amended: the fallback-with-scan fires exactly when extraction
yields no object or an empty object (then: vault type is the first vocabulary
term found in the lowered response, defaulting to `"communications"`,
confidence 0.5, reasoning the 200-character response prefix).  A non-empty
object lacking `vault_type` just defaults to `"communications"` with no scan;
an absent `confidence` defaults to 0.5 (a non-numeric one instead aborts the
stage to the top-level handler). -/
theorem c2_classify_fallback_amended :
    (∀ r : String,
       (extractJsonFromText r = none ∨ extractJsonFromText r = some []) →
       classifyResponse r =
         Except.ok (Json.str ((vaultTypes.find?
             (fun vt => strHasSub (strLower r) vt)).getD "communications"),
           1/2, some (Json.str (strTake r 200)))) ∧
    (∀ r d, extractJsonFromText r = some d → d ≠ [] →
       objGet d "vault_type" = none →
       ∀ vt conf reas, classifyResponse r = Except.ok (vt, conf, reas) →
         vt = Json.str "communications") ∧
    (∀ r d, extractJsonFromText r = some d → d ≠ [] →
       objGet d "confidence" = none →
       ∀ vt conf reas, classifyResponse r = Except.ok (vt, conf, reas) →
         conf = 1/2) := by
  obtain hget := fallbackClassify_get
  refine ⟨?_, ?_, ?_⟩
  · intro r h
    have hres : (match extractJsonFromText r with
        | some kvs => if kvs.isEmpty then fallbackClassify r else kvs
        | none => fallbackClassify r) = fallbackClassify r := by
      rcases h with h | h <;> simp [h]
    simp only [classifyResponse, hres, (hget r).1, (hget r).2.1, (hget r).2.2,
      Option.getD_some]
    rfl
  · intro r d hd hne hvt vt conf reas hcr
    have hie : d.isEmpty = false := by
      cases d with
      | nil => exact absurd rfl hne
      | cons a l => rfl
    simp only [classifyResponse, hd, hie, Bool.false_eq_true, if_false, hvt,
      Option.getD_none] at hcr
    cases hpf : pyFloat ((objGet d "confidence").getD (Json.num (1/2))) with
    | ok q =>
      rw [hpf] at hcr
      exact (Prod.mk.injEq _ _ _ _).mp (Except.ok.injEq _ _ |>.mp hcr) |>.1.symm
    | error e => rw [hpf] at hcr; exact absurd hcr (by simp)
  · intro r d hd hne hconf vt conf reas hcr
    have hie : d.isEmpty = false := by
      cases d with
      | nil => exact absurd rfl hne
      | cons a l => rfl
    simp only [classifyResponse, hd, hie, Bool.false_eq_true, if_false, hconf,
      Option.getD_none] at hcr
    have hpf : pyFloat (Json.num (1/2)) = Except.ok (1/2) := rfl
    rw [hpf] at hcr
    have := (Except.ok.injEq _ _ |>.mp hcr)
    exact ((Prod.mk.injEq _ _ _ _).mp ((Prod.mk.injEq _ _ _ _).mp this).2).1.symm

/-- Witness for C2 (amended): plain text containing `healthcare` makes the
fallback adopt the healthcare vault with confidence 0.5. -/
theorem c2_witness :
    classifyResponse "no json here, just healthcare text" =
      Except.ok (Json.str "healthcare", 1/2,
        some (Json.str "no json here, just healthcare text")) := by
  have h := c2_classify_fallback_amended.1 "no json here, just healthcare text"
    (Or.inl rfl)
  rw [h]
  rfl

/-! ## Claim C3 -/

/-- Claim C3: in every run that completes (no recorded error), the final
confidence is exactly 0.3 for empty extracted data without validation,
0.7 for non-empty extracted data without validation, and
`min(base + 0.15, 1.0)` when validation passed, with base 0.3 / 0.7 by
emptiness of the extracted data. -/
theorem c3_finalize_confidence_rule (agent : Agent) (email : EmailInput)
    (c : ClassifyResult) (hc : classifyEmail agent email = Except.ok c)
    (he : (processEmail agent email).errors = []) :
    (runExtracted agent c = [] ∧ runValidated agent c = false →
       (processEmail agent email).extraction.confidence = 3/10) ∧
    (runExtracted agent c ≠ [] ∧ runValidated agent c = false →
       (processEmail agent email).extraction.confidence = 7/10) ∧
    (runValidated agent c = true →
       (processEmail agent email).extraction.confidence =
         min ((if (runExtracted agent c).isEmpty then (3:ℚ)/10 else 7/10) + 3/20) 1) := by
  cases hp : pydanticStr c.vault_type with
  | error e =>
    rw [processEmail, hc] at he
    simp only [hp] at he
    simp [errorResponse] at he
  | ok s =>
    rw [processEmail_ok_eq agent email c s hc hp]
    refine ⟨?_, ?_, ?_⟩
    · rintro ⟨h1, h2⟩
      simp [h1, h2]
    · rintro ⟨h1, h2⟩
      simp [List.isEmpty_iff, h1, h2]
    · intro h1
      rcases heq : (runExtracted agent c).isEmpty with _ | _
      · simp [h1, heq]
      · simp [h1, heq]

/-- Witness for C3: with a reasoning engine that faults on every call, the run
completes with empty extracted data and failing validation, and the final
confidence is 0.3. -/
theorem c3_witness :
    (processEmail (fun _ => Except.error "llm down") sampleEmail).extraction.confidence
      = 3/10 :=
  (c3_finalize_confidence_rule (fun _ => Except.error "llm down") sampleEmail
    ⟨Json.str "communications", 1/2, some (Json.str ""), formatEmailForLlm sampleEmail⟩
    rfl rfl).1 ⟨rfl, rfl⟩

/-! ## Claim C6 -/

/-- Counterexample to claim C6: with an agent answering every prompt with
`{"vault_type": "legal", "confidence": 1}`, the Classify stage produces
confidence 1.0 but the completed run finalizes at confidence 0.85 < 1.0 —
confidence is not monotonically non-decreasing from Classify to Finalize. -/
theorem c6_counterexample :
    (classifyEmail c6CtxAgent sampleEmail).map ClassifyResult.confidence = Except.ok 1 ∧
    (processEmail c6CtxAgent sampleEmail).errors = [] ∧
    (processEmail c6CtxAgent sampleEmail).extraction.confidence = 17/20 ∧
    ((17:ℚ)/20 < 1) := by
  refine ⟨rfl, ?_, ?_, by norm_num⟩
  · rw [processEmail_ok_eq c6CtxAgent sampleEmail
      ⟨Json.str "legal", 1, none, formatEmailForLlm sampleEmail⟩ "legal" rfl rfl]
  · rw [processEmail_ok_eq c6CtxAgent sampleEmail
      ⟨Json.str "legal", 1, none, formatEmailForLlm sampleEmail⟩ "legal" rfl rfl]
    norm_num [show runValidated c6CtxAgent
        ⟨Json.str "legal", 1, none, formatEmailForLlm sampleEmail⟩ = true from rfl,
      show (runExtracted c6CtxAgent
        ⟨Json.str "legal", 1, none, formatEmailForLlm sampleEmail⟩).isEmpty = false from rfl]

/-- Claim C6 as amended: Finalize recomputes confidence from scratch, so it is
not bounded below by the Classify-stage confidence; what does hold is that the
validation bump never lowers it — every completed run's final confidence is at
least the base value (0.3 or 0.7) determined by the extracted data. -/
theorem c6_confidence_amended (agent : Agent) (email : EmailInput)
    (c : ClassifyResult) (hc : classifyEmail agent email = Except.ok c)
    (he : (processEmail agent email).errors = []) :
    (processEmail agent email).extraction.confidence ≥
      (if (runExtracted agent c).isEmpty then (3:ℚ)/10 else 7/10) := by
  cases hp : pydanticStr c.vault_type with
  | error e =>
    rw [processEmail, hc] at he
    simp only [hp] at he
    simp [errorResponse] at he
  | ok s =>
    rw [processEmail_ok_eq agent email c s hc hp]
    rcases heq : (runExtracted agent c).isEmpty with _ | _ <;>
      rcases hv : runValidated agent c <;>
        simp [heq, hv, le_min_iff] <;> norm_num

/-- Witness for C6 (amended): the run of the faulting-agent scenario has empty
extracted data and final confidence 0.3 ≥ 0.3. -/
theorem c6_witness :
    (processEmail (fun _ => Except.error "llm down") sampleEmail).extraction.confidence ≥
      (if (runExtracted (fun _ => Except.error "llm down")
          ⟨Json.str "communications", 1/2, some (Json.str ""), formatEmailForLlm sampleEmail⟩).isEmpty
       then (3:ℚ)/10 else 7/10) :=
  c6_confidence_amended (fun _ => Except.error "llm down") sampleEmail
    ⟨Json.str "communications", 1/2, some (Json.str ""), formatEmailForLlm sampleEmail⟩
    rfl rfl

/-! ## Claim C7 -/

/-- The suggestion-collecting loop appends at most one item past ten:
the cap check runs after appending. -/
theorem goSuggestions_length_le :
    ∀ (lines : List String) (capture : Bool) (acc : List String),
      acc.length ≤ 10 → (goSuggestions lines capture acc).length ≤ 11 := by
  intro lines
  induction lines with
  | nil =>
    intro capture acc h
    simp only [goSuggestions, List.length_reverse]
    omega
  | cons line rest ih =>
    intro capture acc h
    rw [goSuggestions]
    cases h1 : strHasSub (strLower line) "suggested actions"
    · cases capture
      · simpa [h1] using ih false acc h
      · cases h2 : (strStrip (lstripDashStar (strStrip line))).isEmpty
        · by_cases h3 : acc.length + 1 > 10
          · simp [h1, h2, h3]
            omega
          · simpa [h1, h2, h3] using
              ih true (strStrip (lstripDashStar (strStrip line)) :: acc)
                (by simp only [List.length_cons]; omega)
        · simp [h1, h2]
          omega
    · simpa [h1] using ih true acc h

/-- Without a marker line, the loop never starts capturing. -/
theorem goSuggestions_no_marker :
    ∀ (lines : List String) (acc : List String),
      (∀ line ∈ lines, strHasSub (strLower line) "suggested actions" = false) →
      goSuggestions lines false acc = acc.reverse := by
  intro lines
  induction lines with
  | nil => intro acc _; rfl
  | cons line rest ih =>
    intro acc h
    have h1 := h line (List.mem_cons_self line rest)
    simp only [goSuggestions, h1, Bool.false_eq_true, if_false]
    exact ih acc (fun l hl => h l (List.mem_cons_of_mem _ hl))

/-- Counterexample to claim C7: a response with no JSON, a `Suggested actions`
marker and twelve bullet lines yields 11 items — the cap is not "at most 10",
because `if len(suggestions) > 10: break` runs after the append. -/
theorem c7_counterexample :
    extractJsonFromText c7CtxText = none ∧
    (parseSuggestedActions c7CtxText).length = 11 ∧
    ¬ (parseSuggestedActions c7CtxText).length ≤ 10 := by
  refine ⟨rfl, rfl, ?_⟩
  rw [show (parseSuggestedActions c7CtxText).length = 11 from rfl]
  omega

/-- Claim C7 as amended: for response text with no recoverable
`suggested_actions` JSON array, the fallback locates a case-insensitive
marker line containing `suggested actions`, collects the subsequent
bullet-stripped lines, stops at the first line that is blank after stripping,
and returns at most **11** items (the cap check runs after appending the
11th); with no marker line present it returns nothing. -/
theorem c7_suggested_actions_amended (t : String) (h : noActionsJson t) :
    (parseSuggestedActions t).length ≤ 11 ∧
    ((∀ line ∈ splitlines t, strHasSub (strLower line) "suggested actions" = false) →
      parseSuggestedActions t = []) := by
  have hfall : parseSuggestedActions t = suggestionLines t := by
    cases he : extractJsonFromText t with
    | none => simp only [parseSuggestedActions, he]
    | some d =>
      cases d with
      | nil => simp only [parseSuggestedActions, he, List.isEmpty_nil, if_true]
      | cons a l =>
        cases ho : objGet (a :: l) "suggested_actions" with
        | none => simp only [parseSuggestedActions, he, ho]; rfl
        | some v =>
          cases v with
          | arr elems => exact absurd ho (h (a :: l) he (by simp) elems)
          | null => simp only [parseSuggestedActions, he, ho]; rfl
          | bool b => simp only [parseSuggestedActions, he, ho]; rfl
          | num q => simp only [parseSuggestedActions, he, ho]; rfl
          | str s => simp only [parseSuggestedActions, he, ho]; rfl
          | obj kvs => simp only [parseSuggestedActions, he, ho]; rfl
  rw [hfall]
  constructor
  · exact goSuggestions_length_le (splitlines t) false [] (by simp)
  · intro hno
    exact goSuggestions_no_marker (splitlines t) [] hno

/-- Witness for C7 (amended): the twelve-bullet text has no JSON (so the
hypothesis holds) and its 11 collected items satisfy the bound. -/
theorem c7_witness :
    (parseSuggestedActions c7CtxText).length ≤ 11 ∧
    ((∀ line ∈ splitlines c7CtxText,
        strHasSub (strLower line) "suggested actions" = false) →
      parseSuggestedActions c7CtxText = []) :=
  c7_suggested_actions_amended c7CtxText (by
    intro d hd
    rw [show extractJsonFromText c7CtxText = none from rfl] at hd
    exact absurd hd (by simp))

/-! ## Claim C8 -/

/-- Claim C8: `add_email_to_vault` cannot fault on a well-formed email (its
body is a pure total serialization, modelled by totality of this function),
always returns an empty `errors` list, and is deterministic/idempotent: two
calls on the same email and vault type agree on `vault_type`, `data`, and
`errors`, differing at most in `processing_time_s`. -/
theorem c8_vault_builder_idempotent (email : EmailInput) (vault_type : String)
    (t1 t2 : ℚ) :
    (Pipeline.addEmailToVault email vault_type t1).errors = [] ∧
    (Pipeline.addEmailToVault email vault_type t1).vault_type =
      (Pipeline.addEmailToVault email vault_type t2).vault_type ∧
    (Pipeline.addEmailToVault email vault_type t1).data =
      (Pipeline.addEmailToVault email vault_type t2).data ∧
    (Pipeline.addEmailToVault email vault_type t1).errors =
      (Pipeline.addEmailToVault email vault_type t2).errors :=
  ⟨rfl, rfl, rfl, rfl⟩

/-! ## Claim C9 -/

/-- Claim C9: for the healthcare vault type with empty extracted data, the
strict schema validation succeeds (every `HealthcareVaultSchema` field is
optional or has a default), `validate_extraction` returns `True` without
consulting the reasoning engine (zero calls), and the completed run's final
confidence is 0.45 = 0.3 + 0.15, not 0.3. -/
theorem c9_healthcare_empty_validation (agent : Agent) (email : EmailInput)
    (c : ClassifyResult) (hc : classifyEmail agent email = Except.ok c)
    (hv : c.vault_type = Json.str "healthcare")
    (hx : runExtracted agent c = []) :
    healthcareValid [] = true ∧
    validateExtraction agent c.vault_type [] = (true, 0) ∧
    (processEmail agent email).errors = [] ∧
    (processEmail agent email).extraction.confidence = 9/20 := by
  have hp : pydanticStr c.vault_type = Except.ok "healthcare" := by
    rw [hv]
    rfl
  have hval : runValidated agent c = true := by
    rw [runValidated, hx, hv]
    rfl
  refine ⟨rfl, by rw [hv]; rfl, ?_, ?_⟩
  · rw [processEmail_ok_eq agent email c "healthcare" hc hp]
  · rw [processEmail_ok_eq agent email c "healthcare" hc hp]
    simp only [hval, hx, List.isEmpty_nil, Bool.not_true, if_true, if_false]
    norm_num [min_def]

/-- Witness for C9: an agent that classifies into healthcare and returns
unusable text elsewhere yields an empty extraction, validation passing with
zero reasoning-engine calls, and final confidence 0.45. -/
theorem c9_witness :
    healthcareValid [] = true ∧
    validateExtraction c9WitnessAgent
      (ClassifyResult.vault_type
        ⟨Json.str "healthcare", 1/2, none, formatEmailForLlm sampleEmail⟩) [] = (true, 0) ∧
    (processEmail c9WitnessAgent sampleEmail).errors = [] ∧
    (processEmail c9WitnessAgent sampleEmail).extraction.confidence = 9/20 :=
  c9_healthcare_empty_validation c9WitnessAgent sampleEmail
    ⟨Json.str "healthcare", 1/2, none, formatEmailForLlm sampleEmail⟩ rfl rfl rfl

/-! ## Claim C5 -/

/-- `skipWs` keeps a list headed by a non-whitespace character. -/
theorem skipWs_cons_not (c : Char) (t : List Char) (h : isJsonWs c = false) :
    skipWs (c :: t) = c :: t := by
  simp [skipWs, List.dropWhile_cons, h]

/-- A parse of input headed by `{` can only produce an object. -/
theorem parseVal_brace (fuel : Nat) (t : List Char) (v : Json) (r : List Char)
    (h : parseVal fuel (obChar :: t) = some (v, r)) : ∃ o, v = Json.obj o := by
  cases fuel with
  | zero => simp [parseVal] at h
  | succ fuel =>
    rw [parseVal, skipWs_cons_not obChar t (by decide)] at h
    have h0 : (match skipWs t with
        | [] => (none : Option (Json × List Char))
        | d :: r2 =>
          if d = cbChar then some (Json.obj [], r2)
          else (parseObjFields fuel [] (d :: r2)).map (fun p => (Json.obj p.1, p.2)))
        = some (v, r) := h
    cases hw : skipWs t with
    | nil => rw [hw] at h0; exact absurd h0 (by simp)
    | cons d r2 =>
      rw [hw] at h0
      have h' : (if d = cbChar then some (Json.obj [], r2)
          else (parseObjFields fuel [] (d :: r2)).map (fun p => (Json.obj p.1, p.2)))
          = some (v, r) := h0
      by_cases hd : d = cbChar
      · rw [if_pos hd] at h'
        refine ⟨[], ?_⟩
        injection h' with h1
        exact congrArg Prod.fst h1.symm
      · rw [if_neg hd] at h'
        obtain ⟨⟨o, r3⟩, _, hmap⟩ := Option.map_eq_some'.mp h'
        exact ⟨o, congrArg Prod.fst hmap.symm⟩

/-- `json.loads` on text headed by `{` can only return an object. -/
theorem jsonParse_brace (t : List Char) (v : Json)
    (h : jsonParse (obChar :: t) = some v) : ∃ o, v = Json.obj o := by
  rw [jsonParse] at h
  cases hp : parseVal ((obChar :: t).length + 1) (obChar :: t) with
  | none => rw [hp] at h; simp at h
  | some pr =>
    obtain ⟨v0, rest⟩ := pr
    rw [hp] at h
    by_cases hws : (skipWs rest).isEmpty
    · simp only [hws, if_true] at h
      obtain ⟨o, ho⟩ := parseVal_brace _ t v0 rest hp
      exact ⟨o, by rw [← Option.some_inj.mp h, ho]⟩
    · simp only [hws, Bool.false_eq_true, if_false] at h
      exact absurd h (by simp)

/-- The inner loop of the balanced-brace scan returns the first candidate span
(in inner-loop order) that parses to an object.  The inner `break` on a
successful non-object parse is unreachable because each candidate span starts
with `{`. -/
theorem innerScan_eq (t : List Char) :
    ∀ (rest : List Char) (k : Nat) (depth : Int),
      innerScan (obChar :: t) k depth rest =
        (((candEnds k depth rest).map (fun n => (obChar :: t).take n)).filterMap
          parseObjOf).head? := by
  intro rest
  induction rest with
  | nil => intro k depth; simp [innerScan, candEnds]
  | cons c rest ih =>
    intro k depth
    rw [innerScan, candEnds]
    by_cases h1 : c = obChar
    · rw [if_pos h1, if_pos h1]
      exact ih (k + 1) (depth + 1)
    · rw [if_neg h1, if_neg h1]
      by_cases h2 : c = cbChar
      · rw [if_pos h2, if_pos h2]
        by_cases h3 : depth - 1 = 0
        · rw [if_pos h3, if_pos h3, List.map_cons]
          cases hp : jsonParse ((obChar :: t).take (k + 1)) with
          | none =>
            have hpo : parseObjOf ((obChar :: t).take (k + 1)) = none := by
              rw [parseObjOf, hp]
            rw [List.filterMap_cons_none hpo]
            exact ih (k + 1) (depth - 1)
          | some v =>
            have hbr : (obChar :: t).take (k + 1) = obChar :: t.take k :=
              List.take_succ_cons
            obtain ⟨o, ho⟩ := jsonParse_brace (t.take k) v (by rw [← hbr]; exact hp)
            subst ho
            have hpo : parseObjOf ((obChar :: t).take (k + 1)) = some o := by
              rw [parseObjOf, hp]
            rw [List.filterMap_cons_some hpo]
            rfl
        · rw [if_neg h3, if_neg h3]
          exact ih (k + 1) (depth - 1)
      · rw [if_neg h2, if_neg h2]
        exact ih (k + 1) depth

/-- The outer loop returns the first candidate over all opening braces. -/
theorem outerScan_eq (cs : List Char) :
    ∀ (is : List Nat), (∀ i ∈ is, ∃ t, cs.drop i = obChar :: t) →
      outerScan cs is =
        (((is.map (fun i => (candEnds 0 0 (cs.drop i)).map
            (fun n => (cs.drop i).take n))).flatten).filterMap parseObjOf).head? := by
  intro is
  induction is with
  | nil => intro _; simp [outerScan]
  | cons i is ih =>
    intro h
    obtain ⟨t, ht⟩ := h i (List.mem_cons_self i is)
    rw [outerScan, List.map_cons, List.flatten_cons, List.filterMap_append, ht,
      innerScan_eq t (obChar :: t) 0 0]
    cases hfm : ((candEnds 0 0 (obChar :: t)).map
        (fun n => (obChar :: t).take n)).filterMap parseObjOf with
    | nil =>
      rw [List.nil_append]
      exact ih (fun j hj => h j (List.mem_cons_of_mem _ hj))
    | cons o os =>
      rfl

/-- Every position produced by `bracePositions k` is at least `k` and points
at an opening brace. -/
theorem bracePositions_mem : ∀ (cs : List Char) (k i : Nat),
    i ∈ bracePositions k cs → k ≤ i ∧ ∃ t, cs.drop (i - k) = obChar :: t := by
  intro cs
  induction cs with
  | nil => intro k i h; simp [bracePositions] at h
  | cons c rest ih =>
    intro k i h
    rw [bracePositions] at h
    by_cases hc : c = obChar
    · rw [if_pos hc] at h
      rcases List.mem_cons.mp h with h1 | h1
      · subst h1
        exact ⟨Nat.le_refl _, ⟨rest, by rw [Nat.sub_self, List.drop_zero, hc]⟩⟩
      · obtain ⟨hk, t, ht⟩ := ih (k + 1) i h1
        refine ⟨by omega, ⟨t, ?_⟩⟩
        rw [show i - k = (i - (k + 1)) + 1 by omega, List.drop_succ_cons]
        exact ht
    · rw [if_neg hc] at h
      obtain ⟨hk, t, ht⟩ := ih (k + 1) i h
      refine ⟨by omega, ⟨t, ?_⟩⟩
      rw [show i - k = (i - (k + 1)) + 1 by omega, List.drop_succ_cons]
      exact ht

/-- Claim C5: `_extract_json_from_text` equals the specification-level
extractor — fenced block first, then the first balanced-brace candidate span
(scanning left to right over every opening brace, skipping unparseable spans)
that parses to a JSON object, and `none` (never an exception, by totality)
when no candidate parses.  In particular it recovers `{"a": 1}` from
`prefix {"a":1} suffix`, skips the unparseable first span of
`{ bad } then {"b": 2}`, and returns `none` on brace-free text. -/
theorem c5_extractor_contract :
    (∀ s : String, extractJsonFromText s = specExtract s) ∧
    extractJsonFromText "prefix \x7b\"a\":1\x7d suffix" = some [("a", Json.num 1)] ∧
    extractJsonFromText "\x7b bad \x7d then \x7b\"b\": 2\x7d" = some [("b", Json.num 2)] ∧
    extractJsonFromText "no braces at all" = none := by
  refine ⟨?_, rfl, rfl, rfl⟩
  intro s
  simp only [extractJsonFromText, specExtract]
  by_cases he : s.data.isEmpty
  · rw [if_pos he, if_pos he]
  · rw [if_neg he, if_neg he]
    have hscan : outerScan s.data (bracePositions 0 s.data) =
        ((specCandidates s.data).filterMap parseObjOf).head? := by
      rw [specCandidates]
      exact outerScan_eq s.data (bracePositions 0 s.data) (fun i hi => by
        obtain ⟨_, t, ht⟩ := bracePositions_mem s.data 0 i hi
        exact ⟨t, by simpa using ht⟩)
    cases hfg : (fencedGroup s.data).bind jsonParse with
    | none => exact hscan
    | some v =>
      cases v with
      | obj o => rfl
      | null => exact hscan
      | bool b => exact hscan
      | num q => exact hscan
      | str s' => exact hscan
      | arr l => exact hscan

/-! ## Claim C4 -/

namespace DomainClassifier

/-- `np.argmax` returns a valid index on a non-empty list. -/
theorem npArgmax_lt : ∀ (l : List ℚ), l ≠ [] → npArgmax l < l.length := by
  intro l
  induction l with
  | nil => intro h; exact absurd rfl h
  | cons x tail ih =>
    intro _
    cases tail with
    | nil => simp [npArgmax]
    | cons y rest =>
      rw [npArgmax]
      by_cases hgt : (y :: rest).getD (npArgmax (y :: rest)) 0 > x
      · rw [if_pos hgt]
        simpa [Nat.succ_lt_succ_iff] using ih (List.cons_ne_nil y rest)
      · rw [if_neg hgt]
        simp

/-- `np.argmax` points at a maximum value. -/
theorem npArgmax_le : ∀ (l : List ℚ) (j : Nat), j < l.length →
    l.getD j 0 ≤ l.getD (npArgmax l) 0 := by
  intro l
  induction l with
  | nil => intro j hj; simp at hj
  | cons x tail ih =>
    intro j hj
    cases tail with
    | nil =>
      have hj0 : j = 0 := by simpa [Nat.lt_one_iff] using hj
      subst hj0
      simp [npArgmax]
    | cons y rest =>
      rw [npArgmax]
      by_cases hgt : (y :: rest).getD (npArgmax (y :: rest)) 0 > x
      · rw [if_pos hgt]
        cases j with
        | zero => simpa using le_of_lt hgt
        | succ j' =>
          simp only [List.getD_cons_succ]
          exact ih j' (by simpa using hj)
      · rw [if_neg hgt]
        cases j with
        | zero => simp
        | succ j' =>
          simp only [List.getD_cons_succ, List.getD_cons_zero]
          exact le_trans (ih j' (by simpa using hj)) (not_lt.mp hgt)

/-- `np.argmax` returns the first occurrence of the maximum: every earlier
entry is strictly smaller. -/
theorem npArgmax_first : ∀ (l : List ℚ) (j : Nat), j < npArgmax l →
    l.getD j 0 < l.getD (npArgmax l) 0 := by
  intro l
  induction l with
  | nil => intro j hj; simp [npArgmax] at hj
  | cons x tail ih =>
    intro j hj
    cases tail with
    | nil => simp [npArgmax] at hj
    | cons y rest =>
      rw [npArgmax] at hj ⊢
      by_cases hgt : (y :: rest).getD (npArgmax (y :: rest)) 0 > x
      · rw [if_pos hgt] at hj ⊢
        cases j with
        | zero => simpa using hgt
        | succ j' =>
          simp only [List.getD_cons_succ]
          exact ih j' (by omega)
      · rw [if_neg hgt] at hj
        omega

/-- Indexing a zip of sufficiently long lists indexes both components. -/
theorem zip_getD : ∀ (l1 : List String) (l2 : List ℚ) (i : Nat),
    i < l1.length → i < l2.length →
    (l1.zip l2).getD i ("", 0) = (l1.getD i "", l2.getD i 0) := by
  intro l1
  induction l1 with
  | nil => intro l2 i h1 _; simp at h1
  | cons a l1 ih =>
    intro l2 i h1 h2
    cases l2 with
    | nil => simp at h2
    | cons b l2 =>
      cases i with
      | zero => simp [List.zip_cons_cons]
      | succ i' =>
        simp only [List.zip_cons_cons, List.getD_cons_succ]
        exact ih l2 i' (by simpa using h1) (by simpa using h2)

end DomainClassifier

/-- Claim C4: for every non-empty batch and every result of
`DomainClassifier.classify`, the confidence equals the maximum of the
`all_scores` values (no value exceeds it and it is attained at the result's
own entry), and the category is the key achieving that maximum with ties
broken in favor of the first category in declaration order: every entry
before the attaining index scores strictly lower. -/
theorem c4_classify_argmax {α : Type} (rowScores : α → List ℚ) (emails : List α)
    (hlen : ∀ e ∈ emails,
      (rowScores e).length = DomainClassifier.categoryList.length)
    (r : DomainClassifier.EmailClassificationResult)
    (hr : r ∈ DomainClassifier.classify rowScores emails) :
    (∀ j, j < r.all_scores.length → (r.all_scores.getD j ("", 0)).2 ≤ r.confidence) ∧
    (∃ i, i < r.all_scores.length ∧
      r.all_scores.getD i ("", 0) = (r.category, r.confidence) ∧
      ∀ j, j < i → (r.all_scores.getD j ("", 0)).2 < r.confidence) := by
  cases emails with
  | nil => simp [DomainClassifier.classify] at hr
  | cons e0 es =>
    rw [DomainClassifier.classify] at hr
    simp only [List.isEmpty_cons, if_false, Bool.false_eq_true] at hr
    obtain ⟨e, he, hre⟩ := List.mem_map.mp hr
    have h5 : (rowScores e).length = DomainClassifier.categoryList.length := hlen e he
    have hcl : DomainClassifier.categoryList.length = 5 := rfl
    have hne : rowScores e ≠ [] := by
      intro hnil
      rw [hnil] at h5
      simp [hcl] at h5
    have hbest : DomainClassifier.npArgmax (rowScores e) < (rowScores e).length :=
      DomainClassifier.npArgmax_lt (rowScores e) hne
    have hzlen : (DomainClassifier.categoryList.zip (rowScores e)).length =
        DomainClassifier.categoryList.length := by
      rw [List.length_zip, h5, min_self]
    subst hre
    dsimp only
    constructor
    · intro j hj
      rw [hzlen] at hj
      rw [DomainClassifier.zip_getD DomainClassifier.categoryList (rowScores e) j hj
        (by rw [h5]; exact hj)]
      exact DomainClassifier.npArgmax_le (rowScores e) j (by rw [h5]; exact hj)
    · refine ⟨DomainClassifier.npArgmax (rowScores e), ?_, ?_, ?_⟩
      · rw [hzlen, ← h5]
        exact hbest
      · rw [DomainClassifier.zip_getD DomainClassifier.categoryList (rowScores e)
          (DomainClassifier.npArgmax (rowScores e)) (by rw [← h5]; exact hbest) hbest]
      · intro j hj
        rw [DomainClassifier.zip_getD DomainClassifier.categoryList (rowScores e) j
          (by rw [← h5]; exact lt_trans hj hbest) (lt_trans hj hbest)]
        exact DomainClassifier.npArgmax_first (rowScores e) j hj

/-- Witness for C4: a one-element batch with scores
`[1/2, 1/2, 1/4, 0, 0]` — confidence 1/2 is the maximum, attained first by
`education`, which wins the tie with `medical`. -/
theorem c4_witness :
    (∀ j, j < c4Result.all_scores.length →
       (c4Result.all_scores.getD j ("", 0)).2 ≤ c4Result.confidence) ∧
    (∃ i, i < c4Result.all_scores.length ∧
      c4Result.all_scores.getD i ("", 0) = (c4Result.category, c4Result.confidence) ∧
      ∀ j, j < i → (c4Result.all_scores.getD j ("", 0)).2 < c4Result.confidence) :=
  c4_classify_argmax c4Rows [()] (fun _ _ => rfl) c4Result (by
    rw [show DomainClassifier.classify c4Rows [()] = [c4Result] from rfl]
    exact List.mem_singleton.mpr rfl)

/-! ## Claim C10 -/

/-- Claim C10: when every reasoning-engine call faults, `_call_agent` swallows
each fault into the empty string, the normal path completes, and the response
has an empty `errors` list, vault type `"communications"`, confidence 0.3,
and a non-empty `warnings` list — the confidence-0.0 top-level fault branch
is not taken for reasoning-engine faults. -/
theorem c10_swallowed_agent_faults (agent : Agent) (email : EmailInput)
    (h : ∀ p, ∃ e, agent p = Except.error e) :
    (processEmail agent email).errors = [] ∧
    (processEmail agent email).extraction.vault_type = "communications" ∧
    (processEmail agent email).extraction.confidence = 3/10 ∧
    (processEmail agent email).warnings ≠ [] := by
  have hA : ∀ p, callAgent agent p = "" := by
    intro p
    obtain ⟨e, he⟩ := h p
    simp [callAgent, he]
  have hc : classifyEmail agent email =
      Except.ok ⟨Json.str "communications", 1/2, some (Json.str ""),
                 formatEmailForLlm email⟩ := by
    rw [classifyEmail, hA]
    rfl
  have hx : extractInformation agent (Json.str "communications")
      (formatEmailForLlm email) = ⟨[], []⟩ := by
    rw [extractInformation, hA]
    rfl
  have hv : validateExtraction agent (Json.str "communications") [] = (false, 1) := by
    rw [validateExtraction]
    simp only [hA]
    rfl
  have hrx : runExtracted agent
      ⟨Json.str "communications", 1/2, some (Json.str ""), formatEmailForLlm email⟩ = [] := by
    rw [runExtracted]
    simp [hx]
  have hrv : runValidated agent
      ⟨Json.str "communications", 1/2, some (Json.str ""), formatEmailForLlm email⟩ = false := by
    rw [runValidated, hrx]
    simp [hv]
  rw [processEmail_ok_eq agent email
    ⟨Json.str "communications", 1/2, some (Json.str ""), formatEmailForLlm email⟩
    "communications" hc rfl]
  simp only [hrx, hrv]
  norm_num

/-- Witness for C10: the constant-fault agent on a concrete email. -/
theorem c10_witness :
    (processEmail (fun _ => Except.error "llm down") sampleEmail).errors = [] ∧
    (processEmail (fun _ => Except.error "llm down") sampleEmail).extraction.vault_type
      = "communications" ∧
    (processEmail (fun _ => Except.error "llm down") sampleEmail).extraction.confidence
      = 3/10 ∧
    (processEmail (fun _ => Except.error "llm down") sampleEmail).warnings ≠ [] :=
  c10_swallowed_agent_faults (fun _ => Except.error "llm down") sampleEmail
    (fun _ => ⟨"llm down", rfl⟩)

end B4igo
